import Mathlib

/-!
Verification development for the es-guard configuration detector,
version normalizer, source-map resolver and orchestrator.

The definitions below are shallow embeddings of the TypeScript sources:
  - src/lib/detectTarget.ts   (detectProjectConfig, the per-format parsers)
  - src/lib/defaults.ts       (detectProjectType, DEFAULT_OUTPUT_DIRS)
  - src/lib/getBrowserTargets.ts (parseEcmaVersion, getBrowserTargets)
  - src/lib/isValidEcmaVersion.ts
  - src/lib/createESLintConfig.ts
  - src/lib/checkCompatiblity.ts (getSourceMapForFile, getOriginalSourceMap,
    checkCompatibility, the severity split)
  - src/main.ts               (runESGuard success computation)

JavaScript truthiness is modelled explicitly: a missing value or an empty
string is falsy, every array (even the empty one) is truthy.  File-system
effects are modelled by an explicit finite file system and candidate-file
outcome maps; the unbounded `while` loop of getOriginalSourceMap is
modelled with explicit fuel, `none` meaning the loop has not finished.
-/

deriving instance DecidableEq for Except

namespace EsGuard

/-- JS truthiness of an optional string: `undefined`/`null` and `""` are falsy. -/
def strTruthy : Option String → Bool
  | none => false
  | some s => !(s == "")

/-- JS truthiness of an optional array: every array is truthy, absence is falsy. -/
def listTruthy : Option (List String) → Bool
  | none => false
  | some _ => true

/-- JS `a || b` for an optional string versus a default (empty string falls through). -/
def jsOrString (o : Option String) (dflt : String) : String :=
  match o with
  | some s => if s == "" then dflt else s
  | none => dflt

/-- `String.startsWith`, via the character lists (kernel-reducible). -/
def strStartsWith (s pre : String) : Bool :=
  pre.data.isPrefixOf s.data

/-- `String.endsWith`, via the character lists (kernel-reducible). -/
def strEndsWith (s post : String) : Bool :=
  post.data.isSuffixOf s.data

/-- Numeric value of a digit run (the `parseInt` core). -/
def digitsToNat (ds : List Char) : Nat :=
  ds.foldl (fun n c => n * 10 + (c.toNat - 48)) 0

/-- Leading digit run of a character list, `none` when it is empty (parseInt NaN). -/
def leadingDigitsVal (cs : List Char) : Option Nat :=
  let ds := cs.takeWhile Char.isDigit
  if ds.isEmpty then none else some (digitsToNat ds)

/-- Model of JS `parseInt` on decimal input: optional whitespace, optional
sign, then leading digits; `none` models NaN. -/
def jsParseInt (s : String) : Option Int :=
  let cs := s.data.dropWhile (fun c => c == ' ' || c == '\t' || c == '\n' || c == '\r')
  match cs with
  | '-' :: rest => (leadingDigitsVal rest).map (fun n => -(n : Int))
  | '+' :: rest => (leadingDigitsVal rest).map (fun n => (n : Int))
  | _ => (leadingDigitsVal cs).map (fun n => (n : Int))

/-- First match of the regex `/es(\d+)/i` in a character list: the captured
digit run after a case-insensitive `es` at the leftmost matching position. -/
def findEsMatch : List Char → Option (List Char)
  | [] => none
  | c :: rest =>
    if c == 'e' || c == 'E' then
      match rest with
      | c2 :: rest2 =>
        if c2 == 's' || c2 == 'S' then
          let ds := rest2.takeWhile Char.isDigit
          if ds.isEmpty then findEsMatch rest else some ds
        else findEsMatch rest
      | [] => none
    else findEsMatch rest

/-- `parseESVersion` from detectTarget.ts: extract an `es`-prefixed number;
digits at or above 2000 are used as the year directly, smaller edition
numbers are converted by `year = 2009 + edition`. -/
def parseESVersion (s : String) : Option String :=
  match findEsMatch s.data with
  | some ds =>
    let esVersion := digitsToNat ds
    if esVersion ≥ 2000 then some (toString esVersion)
    else some (toString (2009 + esVersion))
  | none => none

/-- `TARGET_MAP` from detectTarget.ts: named compiler-target identifiers to
canonical year strings, in both spellings. -/
def TARGET_MAP : List (String × String) :=
  [("ES2022", "2022"), ("ES2021", "2021"), ("ES2020", "2020"), ("ES2019", "2019"),
   ("ES2018", "2018"), ("ES2017", "2017"), ("ES2016", "2016"), ("ES2015", "2015"),
   ("ES6", "2015"), ("ES5", "2009"), ("ES3", "1999"),
   ("es2022", "2022"), ("es2021", "2021"), ("es2020", "2020"), ("es2019", "2019"),
   ("es2018", "2018"), ("es2017", "2017"), ("es2016", "2016"), ("es2015", "2015"),
   ("es6", "2015"), ("es5", "2009")]

/-- `TARGET_MAP[key]` lookup. -/
def targetMapLookup (k : String) : Option String :=
  TARGET_MAP.lookup k

/-- `Linter.EcmaVersion`: a number or the string sentinel `"latest"`. -/
inductive EcmaVersion where
  | num (n : Int)
  | latest
deriving DecidableEq

/-- `parseEcmaVersion` from getBrowserTargets.ts: `"latest"` passes through,
years 2015..2026 and edition numbers 3..17 are accepted, everything else is
`null`. -/
def parseEcmaVersion (target : String) : Option EcmaVersion :=
  if target == "latest" then some EcmaVersion.latest
  else
    match jsParseInt target with
    | none => none
    | some n =>
      if 2015 ≤ n ∧ n ≤ 2026 then some (EcmaVersion.num n)
      else if 3 ≤ n ∧ n ≤ 17 then some (EcmaVersion.num n)
      else none

/-- The valid-version set of isValidEcmaVersion.ts. -/
def validVersions : List Int :=
  [3, 5, 6, 7, 8, 9, 10, 11, 12, 13, 14, 15, 16, 17,
   2015, 2016, 2017, 2018, 2019, 2020, 2021, 2022, 2023, 2024, 2025, 2026]

/-- `isValidEcmaVersion`: falsy input is invalid, `"latest"` is valid, a
number must be in the fixed set. -/
def isValidEcmaVersion : Option EcmaVersion → Bool
  | none => false
  | some EcmaVersion.latest => true
  | some (EcmaVersion.num n) => if n == 0 then false else validVersions.contains n

/-- `getBrowserTargets` from getBrowserTargets.ts: the switch mapping an
ECMA version to a Browserslist query string. -/
def getBrowserTargets (target : Option EcmaVersion) : String :=
  match target with
  | some EcmaVersion.latest =>
    "> 1%, last 2 versions, not dead, not ie 11, not op_mini all, not android < 67"
  | some (EcmaVersion.num n) =>
    if n == 3 then "> 0.1%, ie 6"
    else if n == 5 then "> 0.5%, ie 8"
    else if n == 6 || n == 2015 then "> 1%, last 2 versions, not dead, ie 11"
    else if n == 7 || n == 8 || n == 2016 || n == 2017 then
      "> 1%, last 2 versions, not dead, not ie 11"
    else if n == 9 || n == 10 || n == 2018 || n == 2019 then
      "> 1%, last 2 versions, not dead, not ie 11, not op_mini all"
    else if (11 ≤ n ∧ n ≤ 17) ∨ (2020 ≤ n ∧ n ≤ 2026) then
      "> 1%, last 2 versions, not dead, not ie 11, not op_mini all, not android < 67"
    else "> 1%, last 2 versions, not dead"
  | none => "> 1%, last 2 versions, not dead"

/-- `getBrowserTargetsFromString`: parse then map to browser targets. -/
def getBrowserTargetsFromString (target : String) : String :=
  getBrowserTargets (parseEcmaVersion target)

/-- `getEcmaVersion` from createESLintConfig.ts: parse and validate, throwing
(`Except.error`) on an invalid version. -/
def getEcmaVersion (target : String) : Except String EcmaVersion :=
  match parseEcmaVersion target with
  | some v =>
    if isValidEcmaVersion (some v) then Except.ok v
    else Except.error "Invalid ECMAScript version"
  | none => Except.error "Invalid ECMAScript version"

/-- The fields of the ESLint options object built by createESLintConfig
that depend on its inputs. -/
structure ESLintOptions where
  ecmaVersion : EcmaVersion
  browserTargets : String
  compatRule : String
deriving DecidableEq

/-- `createESLintConfig`: throws on an invalid target, otherwise builds the
options with `browsers || getBrowserTargetsFromString(target)`. -/
def createESLintConfig (target : String) (browsers : Option String)
    (skipCompatWarnings : Bool) : Except String ESLintOptions :=
  match getEcmaVersion target with
  | Except.error e => Except.error e
  | Except.ok v =>
    Except.ok
      { ecmaVersion := v
        browserTargets := jsOrString browsers (getBrowserTargetsFromString target)
        compatRule := if skipCompatWarnings then "off" else "warn" }

/-- `ParserResult`: what one per-format extractor returns for one file. -/
structure ParserResult where
  target : Option String
  outputDir : Option String
  outputSource : Option String
  browserslist : Option (List String)
  browserslistSource : Option String
deriving DecidableEq

/-- The empty extractor result (`{}`). -/
def ParserResult.empty : ParserResult :=
  ⟨none, none, none, none, none⟩

/-- `DetectionResult`: the accumulated directory-wide result, each present
field carrying the provenance that supplied it. -/
structure DetectionResult where
  target : Option String
  targetSource : Option String
  outputDir : Option String
  outputSource : Option String
  browserslist : Option (List String)
  browserslistSource : Option String
deriving DecidableEq

/-- The empty detection result created at the start of one pass. -/
def DetectionResult.empty : DetectionResult :=
  ⟨none, none, none, none, none, none⟩

/-- Outcome of visiting one candidate filename during the scan: the file is
absent, it has no registered extractor, its extractor threw, or its
extractor returned a `ParserResult`. -/
inductive CandidateOutcome where
  | absent
  | noParser
  | parseError
  | parsed (d : ParserResult)

/-- The per-file merge step of `detectProjectConfig`: each of the three
fields is copied only when the extraction produced a truthy value and the
accumulated result does not already hold one; provenance is the extractor
supplied source string or else the filename. -/
def applyDetection (res : DetectionResult) (fn : String) (d : ParserResult) : DetectionResult :=
  let res1 :=
    if strTruthy d.target && !strTruthy res.target then
      { res with target := d.target, targetSource := some fn }
    else res
  let res2 :=
    if strTruthy d.outputDir && !strTruthy res1.outputDir then
      { res1 with outputDir := d.outputDir, outputSource := some (jsOrString d.outputSource fn) }
    else res1
  if listTruthy d.browserslist && !listTruthy res2.browserslist then
    { res2 with browserslist := d.browserslist,
                browserslistSource := some (jsOrString d.browserslistSource fn) }
  else res2

/-- The candidate scan loop of `detectProjectConfig`: absent files, files
without a parser and parse failures contribute nothing; after merging a
parsed file the loop stops early once all three fields are populated. -/
def detectLoop : DetectionResult → List (String × CandidateOutcome) → DetectionResult
  | res, [] => res
  | res, (fn, o) :: rest =>
    match o with
    | CandidateOutcome.parsed d =>
      let res2 := applyDetection res fn d
      if strTruthy res2.target && strTruthy res2.outputDir && listTruthy res2.browserslist then
        res2
      else detectLoop res2 rest
    | _ => detectLoop res rest

/-- `CONFIG_FILE_NAMES`: the fixed, ordered candidate-file list. -/
def CONFIG_FILE_NAMES : List String :=
  ["package.json", ".browserslistrc", ".browserslist", "tsconfig.json",
   "babel.config.js", "babel.config.cjs", "babel.config.mjs", ".babelrc",
   "vite.config.js", "vite.config.ts", "vite.config.cjs", "vite.config.mjs",
   "webpack.config.js", "webpack.config.ts", "webpack.config.cjs", "webpack.config.mjs",
   "next.config.js", "next.config.ts", "next.config.cjs", "next.config.mjs"]

/-- `detectProjectConfig` over a directory, the directory being modelled as
the map from each candidate filename to its visit outcome. -/
def detectProjectConfig (dir : String → CandidateOutcome) : DetectionResult :=
  detectLoop DetectionResult.empty (CONFIG_FILE_NAMES.map (fun n => (n, dir n)))

/-- The compilerOptions block of a tsconfig.json. -/
structure CompilerOptions where
  target : Option String
  outDir : Option String
deriving DecidableEq

/-- A parsed tsconfig.json; a missing block also covers the type-guard
failure path, both of which return the empty result. -/
structure TsConfig where
  compilerOptions : Option CompilerOptions
deriving DecidableEq

/-- `parseTsConfig`: map `compilerOptions.target` through TARGET_MAP and
copy `compilerOptions.outDir`. -/
def parseTsConfig (config : TsConfig) : ParserResult :=
  match config.compilerOptions with
  | none => ParserResult.empty
  | some co =>
    let r1 :=
      match co.target with
      | some t =>
        if t == "" then ParserResult.empty
        else
          match targetMapLookup t with
          | some m =>
            if m == "" then ParserResult.empty
            else { ParserResult.empty with target := some m }
          | none => ParserResult.empty
      | none => ParserResult.empty
    match co.outDir with
    | some d => if d == "" then r1 else { r1 with outputDir := some d }
    | none => r1

/-- The `browserslist` field of a package.json: a single string or an array
whose elements may or may not be strings (`none` models a non-string). -/
inductive JsBrowsersField where
  | single (s : String)
  | array (items : List (Option String))
deriving DecidableEq

/-- JS truthiness of the browserslist field: `""` is falsy, arrays truthy. -/
def browsersFieldTruthy : Option JsBrowsersField → Bool
  | none => false
  | some (JsBrowsersField.single s) => !(s == "")
  | some (JsBrowsersField.array _) => true

/-- Wrap a single string into an array and keep only the string elements. -/
def browsersFieldStrings : JsBrowsersField → List String
  | JsBrowsersField.single s => [s]
  | JsBrowsersField.array items => items.filterMap id

/-- A parsed package.json, restricted to the fields the extractor reads. -/
structure PackageJson where
  browserslist : Option JsBrowsersField
  main : Option String
  dist : Option String
  build : Option String
  dependencies : List (String × String)
  devDependencies : List (String × String)
deriving DecidableEq

/-- The known build-tool identities of defaults.ts. -/
inductive ProjectType where
  | nextjs
  | vite
  | webpack
  | rollup
  | parcel
  | generic
deriving DecidableEq

/-- Lookup in `{...dependencies, ...devDependencies}` (devDependencies win). -/
def depsLookup (deps devDeps : List (String × String)) (k : String) : Option String :=
  match devDeps.lookup k with
  | some v => some v
  | none => deps.lookup k

/-- Truthiness of a dependency entry (version string nonempty). -/
def depTruthy (deps devDeps : List (String × String)) (k : String) : Bool :=
  match depsLookup deps devDeps k with
  | some v => !(v == "")
  | none => false

/-- `detectProjectType` from defaults.ts. -/
def detectProjectType (deps devDeps : List (String × String)) : ProjectType :=
  if depTruthy deps devDeps "next" then ProjectType.nextjs
  else if depTruthy deps devDeps "vite" then ProjectType.vite
  else if depTruthy deps devDeps "webpack" then ProjectType.webpack
  else if depTruthy deps devDeps "rollup" then ProjectType.rollup
  else if depTruthy deps devDeps "parcel" then ProjectType.parcel
  else ProjectType.generic

/-- `DEFAULT_OUTPUT_DIRS` from defaults.ts. -/
def DEFAULT_OUTPUT_DIRS : ProjectType → String
  | ProjectType.nextjs => ".next/static"
  | _ => "dist"

/-- `NEXTJS_DEFAULT_BROWSERSLIST` from defaults.ts. -/
def NEXTJS_DEFAULT_BROWSERSLIST : List String :=
  ["chrome 64", "edge 79", "firefox 67", "opera 51", "safari 12"]

/-- Whether `pkg.main` is truthy and starts with `./dist/`. -/
def mainDistHint : Option String → Bool
  | some m => !(m == "") && strStartsWith m "./dist/"
  | none => false

/-- `parsePackageJson` from detectTarget.ts (cold project-type cache): copy
the string entries of a truthy browserslist field, look for an output
directory hint (`dist`, `build`, a `./dist/` main path, or the Next.js
default), and fall back to the Next.js default browserslist. -/
def parsePackageJson (pkg : PackageJson) : ParserResult :=
  let projectType := detectProjectType pkg.dependencies pkg.devDependencies
  let r1 :=
    match pkg.browserslist with
    | some bf =>
      if browsersFieldTruthy (some bf) then
        { ParserResult.empty with browserslist := some (browsersFieldStrings bf) }
      else ParserResult.empty
    | none => ParserResult.empty
  let r2 :=
    if strTruthy pkg.dist then { r1 with outputDir := pkg.dist }
    else if strTruthy pkg.build then { r1 with outputDir := pkg.build }
    else if mainDistHint pkg.main then { r1 with outputDir := some "dist" }
    else if projectType == ProjectType.nextjs then
      { r1 with outputDir := some ".next/static", outputSource := some "package.json (default)" }
    else r1
  if r2.browserslist.isNone && projectType == ProjectType.nextjs then
    { r2 with browserslist := some NEXTJS_DEFAULT_BROWSERSLIST,
              browserslistSource := some "Next.js default" }
  else r2

/-- Result of `consumer.originalPositionFor`. -/
structure OrigPosition where
  source : Option String
  line : Option Nat
  column : Option Nat

/-- A parsed source-map artifact (the `SourceMapConsumer` abstraction):
what it answers for each compiled line/column query. -/
structure SourceMap where
  positionFor : Nat → Nat → OrigPosition

/-- One on-disk file: its raw text, and the parsed map artifact it yields
when loaded as a source map (`none` models a JSON parse failure, which
throws in the source). -/
structure FileEntry where
  content : String
  parsedMap : Option SourceMap

/-- A finite file system. -/
structure FS where
  entries : List (String × FileEntry)

/-- `fs.readFileSync`-style lookup. -/
def FS.lookup (fs : FS) (p : String) : Option FileEntry :=
  fs.entries.lookup p

/-- `fs.existsSync`. -/
def FS.existsSync (fs : FS) (p : String) : Bool :=
  (fs.lookup p).isSome

/-- Whitespace for the `[^\s]+` capture class. -/
def isSpaceChar (c : Char) : Bool :=
  c == ' ' || c == '\t' || c == '\n' || c == '\r' || c == '\x0b' || c == '\x0c'

/-- The literal after `//#` or `//@` in a sourceMappingURL comment. -/
def mapUrlLit : List Char :=
  " sourceMappingURL=".data

/-- Attempt to match `\/\/[#@] sourceMappingURL=([^\s]+)` at this position. -/
def mapUrlAt (cs : List Char) : Option (List Char) :=
  match cs with
  | '/' :: '/' :: c :: rest =>
    if c == '#' || c == '@' then
      if mapUrlLit.isPrefixOf rest then
        let url := (rest.drop mapUrlLit.length).takeWhile (fun ch => !isSpaceChar ch)
        if url.isEmpty then none else some url
      else none
    else none
  | _ => none

/-- Leftmost match of the sourceMappingURL regex in the file text. -/
def scanForMapUrl : List Char → Option (List Char)
  | [] => none
  | c :: rest =>
    match mapUrlAt (c :: rest) with
    | some u => some u
    | none => scanForMapUrl rest

/-- `path.dirname` (simplified): everything before the last slash, `.` when
there is none. -/
def dirnameOf (p : String) : String :=
  let cs := p.data
  let rev := cs.reverse
  let tail := rev.dropWhile (fun c => !(c == '/'))
  match tail with
  | [] => "."
  | _ :: restRev => String.mk restRev.reverse

/-- `path.isAbsolute` (POSIX model). -/
def isAbsolutePath (p : String) : Bool :=
  strStartsWith p "/"

/-- Resolve a map reference against the compiled file (simplified
`path.resolve(path.dirname(jsFile), url)`, without `..` normalization). -/
def resolveMapPath (jsFile url : String) : String :=
  if isAbsolutePath url then url else dirnameOf jsFile ++ "/" ++ url

/-- `getSourceMapForFile`: prefer the sidecar `.map` next to the file, else
resolve an embedded sourceMappingURL comment; `Except.error` models a
thrown exception (missing compiled file or invalid map JSON), `.ok none`
models "no map available". -/
def getSourceMapForFile (fs : FS) (jsFile : String) : Except String (Option SourceMap) :=
  match fs.lookup (jsFile ++ ".map") with
  | some entry =>
    match entry.parsedMap with
    | some m => Except.ok (some m)
    | none => Except.error "JSON.parse"
  | none =>
    match fs.lookup jsFile with
    | none => Except.error "ENOENT"
    | some jsEntry =>
      match scanForMapUrl jsEntry.content.data with
      | some urlChars =>
        let url := String.mk urlChars
        if !strEndsWith url ".map" then Except.ok none
        else
          match fs.lookup (resolveMapPath jsFile url) with
          | some mEntry =>
            match mEntry.parsedMap with
            | some m => Except.ok (some m)
            | none => Except.error "JSON.parse"
          | none => Except.ok none
      | none => Except.ok none

/-- Whether the file carries a resolvable sourceMappingURL reference: a
comment whose URL ends in `.map` and resolves to an existing file. -/
def resolvableMapRef (fs : FS) (jsFile : String) : Bool :=
  match fs.lookup jsFile with
  | none => false
  | some e =>
    match scanForMapUrl e.content.data with
    | none => false
    | some urlChars =>
      let url := String.mk urlChars
      strEndsWith url ".map" && fs.existsSync (resolveMapPath jsFile url)

/-- What `getOriginalSourceMap` returns on success: the last consumer of
the chain and the last authored source seen. -/
structure OrigResult where
  consumer : SourceMap
  originalFile : Option String

/-- The source of the first mapped position, as queried by the chain loop. -/
def SourceMap.firstSource (m : SourceMap) : Option String :=
  (m.positionFor 1 0).source

/-- The `while (true)` chain-following loop of `getOriginalSourceMap`, with
explicit fuel: the outer `none` means the fuel ran out before the loop
finished, `some (Except.error _)` a propagated exception, and
`some (.ok _)` a normal return (`none` when the first lookup of the current
hop found no consumer). -/
def getOriginalSourceMapFuel (fs : FS) :
    Nat → String → Option String → Option (Except String (Option OrigResult))
  | 0, _, _ => none
  | fuel + 1, currentFile, origFile =>
    match getSourceMapForFile fs currentFile with
    | Except.error e => some (Except.error e)
    | Except.ok none => some (Except.ok none)
    | Except.ok (some consumer) =>
      match consumer.firstSource with
      | some src =>
        if src == "" then some (Except.ok (some ⟨consumer, origFile⟩))
        else if strStartsWith src "webpack://" then some (Except.ok (some ⟨consumer, some src⟩))
        else
          let resolvedPath := if isAbsolutePath src then src else resolveMapPath currentFile src
          if fs.existsSync resolvedPath && strEndsWith resolvedPath ".js" then
            getOriginalSourceMapFuel fs fuel resolvedPath (some src)
          else some (Except.ok (some ⟨consumer, some src⟩))
      | none => some (Except.ok (some ⟨consumer, origFile⟩))

/-- The chain loop terminates on this input: some fuel suffices. -/
def chainTerminates (fs : FS) (jsFile : String) : Prop :=
  ∃ fuel, (getOriginalSourceMapFuel fs fuel jsFile none).isSome = true

/-- One diagnostic from the analysis engine. -/
structure LintMessage where
  ruleId : Option String
  severity : Nat
  message : String
  line : Nat
  column : Nat
deriving DecidableEq

/-- One engine result: a compiled file and its diagnostics. -/
structure LintResult where
  filePath : String
  messages : List LintMessage
deriving DecidableEq

/-- Substring test used to model `String.includes`. -/
def strContainsSub (s pat : String) : Bool :=
  s.data.tails.any (fun t => pat.data.isPrefixOf t)

/-- The filtered-out notice text (built without literal quote characters). -/
def noInlineConfigNotice : String :=
  "has no effect because you have " ++ String.mk [Char.ofNat 39] ++ "noInlineConfig" ++ String.mk [Char.ofNat 39]

/-- `isRelevantMessage` from checkCompatiblity.ts. -/
def isRelevantMessage (m : LintMessage) : Bool :=
  !strContainsSub m.message noInlineConfigNotice

/-- The blocking (severity 2) diagnostics of one result. -/
def relevantErrors (r : LintResult) : List LintMessage :=
  r.messages.filter (fun m => m.severity == 2 && isRelevantMessage m)

/-- The advisory (severity 1) diagnostics of one result. -/
def relevantWarnings (r : LintResult) : List LintMessage :=
  r.messages.filter (fun m => m.severity == 1 && isRelevantMessage m)

/-- A diagnostic augmented with the remapped authored position. -/
structure SourceMappedMessage where
  base : LintMessage
  originalFile : Option String
  originalLine : Option Nat
  originalColumn : Option Nat

/-- JS `a || b || undefined` over optional strings. -/
def jsOrOpt (a b : Option String) : Option String :=
  if strTruthy a then a else if strTruthy b then b else none

/-- JS `n || undefined` over an optional number (`0` is falsy). -/
def jsOrNat : Option Nat → Option Nat
  | some 0 => none
  | some n => some n
  | none => none

/-- The per-message remap of checkCompatibility. -/
def remapMessage (sm : SourceMap) (originalFile : Option String) (msg : LintMessage) :
    SourceMappedMessage :=
  let orig := sm.positionFor msg.line msg.column
  { base := msg
    originalFile := jsOrOpt orig.source originalFile
    originalLine := jsOrNat orig.line
    originalColumn := jsOrNat orig.column }

/-- One reported violation: the compiled file, its diagnostics, and the
remapped diagnostics when a map chain resolved. -/
structure Violation where
  file : String
  messages : List LintMessage
  sourceMappedMessages : Option (List SourceMappedMessage)

/-- The per-result block of `checkCompatibility`: split diagnostics by
severity, resolve the source-map chain only when there is something to
report, and attach remapped positions only when a consumer was found.
The outer `none` again means the chain loop ran out of fuel. -/
def processResult (fs : FS) (fuel : Nat) (r : LintResult) :
    Option (Except String (Option Violation × Option Violation)) :=
  let errorMessages := relevantErrors r
  let warningMessages := relevantWarnings r
  let smStep :=
    if errorMessages.isEmpty && warningMessages.isEmpty then some (Except.ok none)
    else getOriginalSourceMapFuel fs fuel r.filePath none
  match smStep with
  | none => none
  | some (Except.error e) => some (Except.error e)
  | some (Except.ok osm) =>
    let mapMsgs : List LintMessage → Option (List SourceMappedMessage) := fun msgs =>
      match osm with
      | some res => some (msgs.map (remapMessage res.consumer res.originalFile))
      | none => none
    some (Except.ok
      ((if errorMessages.isEmpty then none
        else some { file := r.filePath, messages := errorMessages,
                    sourceMappedMessages := mapMsgs errorMessages }),
       (if warningMessages.isEmpty then none
        else some { file := r.filePath, messages := warningMessages,
                    sourceMappedMessages := mapMsgs warningMessages })))

/-- The relevant slice of `Config` for the environment contract. -/
structure Config where
  dir : String
  target : String
  browsers : Option String
deriving DecidableEq

/-- The environment-threading skeleton of `checkCompatibility`: set the
BROWSERSLIST variable when browsers are configured, build the engine
configuration (which may throw), run the engine body (whose own failure is
caught), and restore the variable in the `finally` block.  The engine body
is abstracted as a function of the environment it observes; the pair
returned is the call outcome and the final state of the variable.  A
configuration-construction throw happens between the variable assignment
and the `try`, so it propagates without restoring. -/
def checkCompatibility (cfg : Config)
    (engine : Option String → Except Unit (List Violation × List Violation))
    (env0 : Option String) :
    Except Unit (List Violation × List Violation) × Option String :=
  let env1 := if strTruthy cfg.browsers then cfg.browsers else env0
  match createESLintConfig cfg.target cfg.browsers false with
  | Except.error _ => (Except.error (), env1)
  | Except.ok _ =>
    match engine env1 with
    | Except.ok p => (Except.ok p, env0)
    | Except.error _ => (Except.ok ([], []), env0)

/-- The compiled files for which `runESGuard` pushes an error violation:
those with at least one relevant severity-2 diagnostic. -/
def collectErrorFiles (results : List LintResult) : List String :=
  results.filterMap (fun r => if (relevantErrors r).isEmpty then none else some r.filePath)

/-- The success computation of `runESGuard`:
`errors.length === 0 || (options.skip ?? false)`. -/
def runESGuardSuccess (results : List LintResult) (skip : Bool) : Bool :=
  (collectErrorFiles results).isEmpty || skip

/-! ### First-found-wins machinery for C1 -/

/-- The target a candidate visit supplies, with its provenance filename:
only a parsed file with a truthy target supplies one. -/
def targetSupplied : String × CandidateOutcome → Option (String × String)
  | (fn, CandidateOutcome.parsed d) =>
    match d.target with
    | some t => if t == "" then none else some (fn, t)
    | none => none
  | _ => none

/-- The output directory a candidate visit supplies, as value and
provenance (the extractor-supplied source string or else the filename). -/
def outputSupplied : String × CandidateOutcome → Option (String × String)
  | (fn, CandidateOutcome.parsed d) =>
    match d.outputDir with
    | some v => if v == "" then none else some (v, jsOrString d.outputSource fn)
    | none => none
  | _ => none

/-- The browserslist a candidate visit supplies, as value and provenance. -/
def browsersSupplied : String × CandidateOutcome → Option (List String × String)
  | (fn, CandidateOutcome.parsed d) =>
    match d.browserslist with
    | some l => some (l, jsOrString d.browserslistSource fn)
    | none => none
  | _ => none

/-- The first candidate in scan order that supplies a target. -/
def firstTargetSupplier (files : List (String × CandidateOutcome)) : Option (String × String) :=
  (files.filterMap targetSupplied).head?

/-- The first candidate in scan order that supplies an output directory. -/
def firstOutputSupplier (files : List (String × CandidateOutcome)) : Option (String × String) :=
  (files.filterMap outputSupplied).head?

/-- The first candidate in scan order that supplies a browserslist. -/
def firstBrowsersSupplier (files : List (String × CandidateOutcome)) :
    Option (List String × String) :=
  (files.filterMap browsersSupplied).head?

theorem applyDetection_target_eq (res : DetectionResult) (fn : String) (d : ParserResult) :
    (applyDetection res fn d).target
      = (if strTruthy d.target && !strTruthy res.target then d.target else res.target)
    ∧ (applyDetection res fn d).targetSource
      = (if strTruthy d.target && !strTruthy res.target then some fn else res.targetSource) := by
  unfold applyDetection
  dsimp only
  split <;> split <;> split <;> simp_all

theorem applyDetection_output_eq (res : DetectionResult) (fn : String) (d : ParserResult) :
    (applyDetection res fn d).outputDir
      = (if strTruthy d.outputDir && !strTruthy res.outputDir then d.outputDir else res.outputDir)
    ∧ (applyDetection res fn d).outputSource
      = (if strTruthy d.outputDir && !strTruthy res.outputDir then
           some (jsOrString d.outputSource fn)
         else res.outputSource) := by
  unfold applyDetection
  dsimp only
  split <;> split <;> split <;> simp_all

theorem applyDetection_browsers_eq (res : DetectionResult) (fn : String) (d : ParserResult) :
    (applyDetection res fn d).browserslist
      = (if listTruthy d.browserslist && !listTruthy res.browserslist then d.browserslist
         else res.browserslist)
    ∧ (applyDetection res fn d).browserslistSource
      = (if listTruthy d.browserslist && !listTruthy res.browserslist then
           some (jsOrString d.browserslistSource fn)
         else res.browserslistSource) := by
  unfold applyDetection
  dsimp only
  split <;> split <;> split <;> simp_all

theorem detectLoop_target_frozen (files : List (String × CandidateOutcome)) :
    ∀ res : DetectionResult, strTruthy res.target = true →
      (detectLoop res files).target = res.target
      ∧ (detectLoop res files).targetSource = res.targetSource := by
  induction files with
  | nil => intro res _; exact ⟨rfl, rfl⟩
  | cons p rest ih =>
    intro res h
    obtain ⟨fn, o⟩ := p
    cases o with
    | parsed d =>
      obtain ⟨ht, hs⟩ := applyDetection_target_eq res fn d
      have hcond : (strTruthy d.target && !strTruthy res.target) = false := by
        simp [h]
      rw [hcond] at ht hs
      simp only [if_neg Bool.false_ne_true] at ht hs
      show (if _ then applyDetection res fn d else detectLoop (applyDetection res fn d) rest).target = _
        ∧ (if _ then applyDetection res fn d else detectLoop (applyDetection res fn d) rest).targetSource = _
      split
      · exact ⟨ht, hs⟩
      · have hres := ih (applyDetection res fn d) (by rw [ht]; exact h)
        rw [hres.1, hres.2]
        exact ⟨ht, hs⟩
    | absent => exact ih res h
    | noParser => exact ih res h
    | parseError => exact ih res h

theorem detectLoop_output_frozen (files : List (String × CandidateOutcome)) :
    ∀ res : DetectionResult, strTruthy res.outputDir = true →
      (detectLoop res files).outputDir = res.outputDir
      ∧ (detectLoop res files).outputSource = res.outputSource := by
  induction files with
  | nil => intro res _; exact ⟨rfl, rfl⟩
  | cons p rest ih =>
    intro res h
    obtain ⟨fn, o⟩ := p
    cases o with
    | parsed d =>
      obtain ⟨ht, hs⟩ := applyDetection_output_eq res fn d
      have hcond : (strTruthy d.outputDir && !strTruthy res.outputDir) = false := by
        simp [h]
      rw [hcond] at ht hs
      simp only [if_neg Bool.false_ne_true] at ht hs
      show (if _ then applyDetection res fn d else detectLoop (applyDetection res fn d) rest).outputDir = _
        ∧ (if _ then applyDetection res fn d else detectLoop (applyDetection res fn d) rest).outputSource = _
      split
      · exact ⟨ht, hs⟩
      · have hres := ih (applyDetection res fn d) (by rw [ht]; exact h)
        rw [hres.1, hres.2]
        exact ⟨ht, hs⟩
    | absent => exact ih res h
    | noParser => exact ih res h
    | parseError => exact ih res h

theorem detectLoop_browsers_frozen (files : List (String × CandidateOutcome)) :
    ∀ res : DetectionResult, listTruthy res.browserslist = true →
      (detectLoop res files).browserslist = res.browserslist
      ∧ (detectLoop res files).browserslistSource = res.browserslistSource := by
  induction files with
  | nil => intro res _; exact ⟨rfl, rfl⟩
  | cons p rest ih =>
    intro res h
    obtain ⟨fn, o⟩ := p
    cases o with
    | parsed d =>
      obtain ⟨ht, hs⟩ := applyDetection_browsers_eq res fn d
      have hcond : (listTruthy d.browserslist && !listTruthy res.browserslist) = false := by
        simp [h]
      rw [hcond] at ht hs
      simp only [if_neg Bool.false_ne_true] at ht hs
      show (if _ then applyDetection res fn d else detectLoop (applyDetection res fn d) rest).browserslist = _
        ∧ (if _ then applyDetection res fn d else detectLoop (applyDetection res fn d) rest).browserslistSource = _
      split
      · exact ⟨ht, hs⟩
      · have hres := ih (applyDetection res fn d) (by rw [ht]; exact h)
        rw [hres.1, hres.2]
        exact ⟨ht, hs⟩
    | absent => exact ih res h
    | noParser => exact ih res h
    | parseError => exact ih res h

theorem firstTargetSupplier_cons (p : String × CandidateOutcome)
    (rest : List (String × CandidateOutcome)) :
    firstTargetSupplier (p :: rest)
      = (match targetSupplied p with
         | some x => some x
         | none => firstTargetSupplier rest) := by
  unfold firstTargetSupplier
  rw [List.filterMap_cons]
  cases targetSupplied p <;> simp

theorem firstOutputSupplier_cons (p : String × CandidateOutcome)
    (rest : List (String × CandidateOutcome)) :
    firstOutputSupplier (p :: rest)
      = (match outputSupplied p with
         | some x => some x
         | none => firstOutputSupplier rest) := by
  unfold firstOutputSupplier
  rw [List.filterMap_cons]
  cases outputSupplied p <;> simp

theorem firstBrowsersSupplier_cons (p : String × CandidateOutcome)
    (rest : List (String × CandidateOutcome)) :
    firstBrowsersSupplier (p :: rest)
      = (match browsersSupplied p with
         | some x => some x
         | none => firstBrowsersSupplier rest) := by
  unfold firstBrowsersSupplier
  rw [List.filterMap_cons]
  cases browsersSupplied p <;> simp

theorem detectLoop_target_char (files : List (String × CandidateOutcome)) :
    ∀ res : DetectionResult, strTruthy res.target = false →
      (detectLoop res files).target
        = (match firstTargetSupplier files with
           | some x => some x.2
           | none => res.target)
      ∧ (detectLoop res files).targetSource
        = (match firstTargetSupplier files with
           | some x => some x.1
           | none => res.targetSource) := by
  induction files with
  | nil =>
    intro res _
    simp [detectLoop, firstTargetSupplier]
  | cons p rest ih =>
    intro res h
    obtain ⟨fn, o⟩ := p
    rw [firstTargetSupplier_cons]
    cases o with
    | parsed d =>
      obtain ⟨ht, hs⟩ := applyDetection_target_eq res fn d
      by_cases hd : strTruthy d.target = true
      · -- the current file supplies the target
        obtain ⟨t, htv, hne⟩ : ∃ t, d.target = some t ∧ (t == "") = false := by
          cases hdt : d.target with
          | none => rw [hdt] at hd; simp [strTruthy] at hd
          | some t =>
            rw [hdt] at hd
            simp only [strTruthy, Bool.not_eq_true'] at hd
            exact ⟨t, rfl, by simpa using hd⟩
        have hsup : targetSupplied (fn, CandidateOutcome.parsed d) = some (fn, t) := by
          simp [targetSupplied, htv, hne]
        have hcond : (strTruthy d.target && !strTruthy res.target) = true := by
          simp [hd, h]
        rw [hcond] at ht hs
        simp only [if_pos rfl] at ht hs
        rw [hsup]
        have htrue : strTruthy (applyDetection res fn d).target = true := by
          rw [ht, htv]
          simpa [strTruthy] using hne
        show (if _ then applyDetection res fn d else detectLoop (applyDetection res fn d) rest).target = _
          ∧ (if _ then applyDetection res fn d else detectLoop (applyDetection res fn d) rest).targetSource = _
        split
        · constructor <;> simp [ht, hs, htv]
        · have hres := detectLoop_target_frozen rest (applyDetection res fn d) htrue
          rw [hres.1, hres.2]
          constructor <;> simp [ht, hs, htv]
      · -- the current file does not supply the target
        have hd : strTruthy d.target = false := by
          cases hv : strTruthy d.target
          · rfl
          · exact absurd hv hd
        have hsup : targetSupplied (fn, CandidateOutcome.parsed d) = none := by
          cases hdt : d.target with
          | none => simp [targetSupplied, hdt]
          | some t =>
            rw [hdt] at hd
            simp only [strTruthy, Bool.not_eq_false'] at hd
            simp [targetSupplied, hdt, hd]
        have hcond : (strTruthy d.target && !strTruthy res.target) = false := by
          simp [hd]
        rw [hcond] at ht hs
        simp only [if_neg Bool.false_ne_true] at ht hs
        rw [hsup]
        have hfalse : strTruthy (applyDetection res fn d).target = false := by
          rw [ht]; exact h
        show (if _ then applyDetection res fn d else detectLoop (applyDetection res fn d) rest).target = _
          ∧ (if _ then applyDetection res fn d else detectLoop (applyDetection res fn d) rest).targetSource = _
        have hbreak : (strTruthy (applyDetection res fn d).target
            && strTruthy (applyDetection res fn d).outputDir
            && listTruthy (applyDetection res fn d).browserslist) = false := by
          simp [hfalse]
        rw [if_neg (by rw [hbreak]; exact Bool.false_ne_true)]
        have hres := ih (applyDetection res fn d) hfalse
        rw [hres.1, hres.2, ht, hs]
        exact ⟨rfl, rfl⟩
    | absent =>
      show (detectLoop res rest).target = _ ∧ (detectLoop res rest).targetSource = _
      simpa [targetSupplied] using ih res h
    | noParser =>
      show (detectLoop res rest).target = _ ∧ (detectLoop res rest).targetSource = _
      simpa [targetSupplied] using ih res h
    | parseError =>
      show (detectLoop res rest).target = _ ∧ (detectLoop res rest).targetSource = _
      simpa [targetSupplied] using ih res h

theorem detectLoop_output_char (files : List (String × CandidateOutcome)) :
    ∀ res : DetectionResult, strTruthy res.outputDir = false →
      (detectLoop res files).outputDir
        = (match firstOutputSupplier files with
           | some x => some x.1
           | none => res.outputDir)
      ∧ (detectLoop res files).outputSource
        = (match firstOutputSupplier files with
           | some x => some x.2
           | none => res.outputSource) := by
  induction files with
  | nil =>
    intro res _
    simp [detectLoop, firstOutputSupplier]
  | cons p rest ih =>
    intro res h
    obtain ⟨fn, o⟩ := p
    rw [firstOutputSupplier_cons]
    cases o with
    | parsed d =>
      obtain ⟨ht, hs⟩ := applyDetection_output_eq res fn d
      by_cases hd : strTruthy d.outputDir = true
      · obtain ⟨v, htv, hne⟩ : ∃ v, d.outputDir = some v ∧ (v == "") = false := by
          cases hdt : d.outputDir with
          | none => rw [hdt] at hd; simp [strTruthy] at hd
          | some v =>
            rw [hdt] at hd
            simp only [strTruthy, Bool.not_eq_true'] at hd
            exact ⟨v, rfl, by simpa using hd⟩
        have hsup : outputSupplied (fn, CandidateOutcome.parsed d)
            = some (v, jsOrString d.outputSource fn) := by
          simp [outputSupplied, htv, hne]
        have hcond : (strTruthy d.outputDir && !strTruthy res.outputDir) = true := by
          simp [hd, h]
        rw [hcond] at ht hs
        simp only [if_pos rfl] at ht hs
        rw [hsup]
        have htrue : strTruthy (applyDetection res fn d).outputDir = true := by
          rw [ht, htv]
          simpa [strTruthy] using hne
        show (if _ then applyDetection res fn d else detectLoop (applyDetection res fn d) rest).outputDir = _
          ∧ (if _ then applyDetection res fn d else detectLoop (applyDetection res fn d) rest).outputSource = _
        split
        · constructor <;> simp [ht, hs, htv]
        · have hres := detectLoop_output_frozen rest (applyDetection res fn d) htrue
          rw [hres.1, hres.2]
          constructor <;> simp [ht, hs, htv]
      · have hd : strTruthy d.outputDir = false := by
          cases hv : strTruthy d.outputDir
          · rfl
          · exact absurd hv hd
        have hsup : outputSupplied (fn, CandidateOutcome.parsed d) = none := by
          cases hdt : d.outputDir with
          | none => simp [outputSupplied, hdt]
          | some v =>
            rw [hdt] at hd
            simp only [strTruthy, Bool.not_eq_false'] at hd
            simp [outputSupplied, hdt, hd]
        have hcond : (strTruthy d.outputDir && !strTruthy res.outputDir) = false := by
          simp [hd]
        rw [hcond] at ht hs
        simp only [if_neg Bool.false_ne_true] at ht hs
        rw [hsup]
        have hfalse : strTruthy (applyDetection res fn d).outputDir = false := by
          rw [ht]; exact h
        show (if _ then applyDetection res fn d else detectLoop (applyDetection res fn d) rest).outputDir = _
          ∧ (if _ then applyDetection res fn d else detectLoop (applyDetection res fn d) rest).outputSource = _
        have hbreak : (strTruthy (applyDetection res fn d).target
            && strTruthy (applyDetection res fn d).outputDir
            && listTruthy (applyDetection res fn d).browserslist) = false := by
          simp [hfalse]
        rw [if_neg (by rw [hbreak]; exact Bool.false_ne_true)]
        have hres := ih (applyDetection res fn d) hfalse
        rw [hres.1, hres.2, ht, hs]
        exact ⟨rfl, rfl⟩
    | absent =>
      show (detectLoop res rest).outputDir = _ ∧ (detectLoop res rest).outputSource = _
      simpa [outputSupplied] using ih res h
    | noParser =>
      show (detectLoop res rest).outputDir = _ ∧ (detectLoop res rest).outputSource = _
      simpa [outputSupplied] using ih res h
    | parseError =>
      show (detectLoop res rest).outputDir = _ ∧ (detectLoop res rest).outputSource = _
      simpa [outputSupplied] using ih res h

theorem detectLoop_browsers_char (files : List (String × CandidateOutcome)) :
    ∀ res : DetectionResult, listTruthy res.browserslist = false →
      (detectLoop res files).browserslist
        = (match firstBrowsersSupplier files with
           | some x => some x.1
           | none => res.browserslist)
      ∧ (detectLoop res files).browserslistSource
        = (match firstBrowsersSupplier files with
           | some x => some x.2
           | none => res.browserslistSource) := by
  induction files with
  | nil =>
    intro res _
    simp [detectLoop, firstBrowsersSupplier]
  | cons p rest ih =>
    intro res h
    obtain ⟨fn, o⟩ := p
    rw [firstBrowsersSupplier_cons]
    cases o with
    | parsed d =>
      obtain ⟨ht, hs⟩ := applyDetection_browsers_eq res fn d
      cases hdt : d.browserslist with
      | some l =>
        have hd : listTruthy d.browserslist = true := by rw [hdt]; rfl
        have hsup : browsersSupplied (fn, CandidateOutcome.parsed d)
            = some (l, jsOrString d.browserslistSource fn) := by
          simp [browsersSupplied, hdt]
        have hcond : (listTruthy d.browserslist && !listTruthy res.browserslist) = true := by
          simp [hd, h]
        rw [hcond] at ht hs
        simp only [if_pos rfl] at ht hs
        rw [hsup]
        have htrue : listTruthy (applyDetection res fn d).browserslist = true := by
          rw [ht, hdt]; rfl
        show (if _ then applyDetection res fn d else detectLoop (applyDetection res fn d) rest).browserslist = _
          ∧ (if _ then applyDetection res fn d else detectLoop (applyDetection res fn d) rest).browserslistSource = _
        split
        · constructor <;> simp [ht, hs, hdt]
        · have hres := detectLoop_browsers_frozen rest (applyDetection res fn d) htrue
          rw [hres.1, hres.2]
          constructor <;> simp [ht, hs, hdt]
      | none =>
        have hd : listTruthy d.browserslist = false := by rw [hdt]; rfl
        have hsup : browsersSupplied (fn, CandidateOutcome.parsed d) = none := by
          simp [browsersSupplied, hdt]
        have hcond : (listTruthy d.browserslist && !listTruthy res.browserslist) = false := by
          simp [hd]
        rw [hcond] at ht hs
        simp only [if_neg Bool.false_ne_true] at ht hs
        rw [hsup]
        have hfalse : listTruthy (applyDetection res fn d).browserslist = false := by
          rw [ht]; exact h
        show (if _ then applyDetection res fn d else detectLoop (applyDetection res fn d) rest).browserslist = _
          ∧ (if _ then applyDetection res fn d else detectLoop (applyDetection res fn d) rest).browserslistSource = _
        have hbreak : (strTruthy (applyDetection res fn d).target
            && strTruthy (applyDetection res fn d).outputDir
            && listTruthy (applyDetection res fn d).browserslist) = false := by
          simp [hfalse]
        rw [if_neg (by rw [hbreak]; exact Bool.false_ne_true)]
        have hres := ih (applyDetection res fn d) hfalse
        rw [hres.1, hres.2, ht, hs]
        exact ⟨rfl, rfl⟩
    | absent =>
      show (detectLoop res rest).browserslist = _ ∧ (detectLoop res rest).browserslistSource = _
      simpa [browsersSupplied] using ih res h
    | noParser =>
      show (detectLoop res rest).browserslist = _ ∧ (detectLoop res rest).browserslistSource = _
      simpa [browsersSupplied] using ih res h
    | parseError =>
      show (detectLoop res rest).browserslist = _ ∧ (detectLoop res rest).browserslistSource = _
      simpa [browsersSupplied] using ih res h

/-! ### Claim theorems -/

/-- Claim C1: In every detection pass of `detectProjectConfig` over the ordered
candidate-file list, each of the three fields (target, outputDir,
browserslist) of the returned `DetectionResult`, together with its
provenance, is exactly the value supplied by the *first* candidate file in
scan order that supplies that field — so once a field is populated by an
earlier file, no later candidate file overwrites the value or its
provenance: if candidates i and j (i < j) both supply the same field, the
result carries the value and provenance of file i regardless of the
content of file j. -/
theorem detectProjectConfig_first_found_wins (dir : String → CandidateOutcome) :
    ((detectProjectConfig dir).target
        = (firstTargetSupplier (CONFIG_FILE_NAMES.map (fun n => (n, dir n)))).map (fun x => x.2)
      ∧ (detectProjectConfig dir).targetSource
        = (firstTargetSupplier (CONFIG_FILE_NAMES.map (fun n => (n, dir n)))).map (fun x => x.1))
    ∧ ((detectProjectConfig dir).outputDir
        = (firstOutputSupplier (CONFIG_FILE_NAMES.map (fun n => (n, dir n)))).map (fun x => x.1)
      ∧ (detectProjectConfig dir).outputSource
        = (firstOutputSupplier (CONFIG_FILE_NAMES.map (fun n => (n, dir n)))).map (fun x => x.2))
    ∧ ((detectProjectConfig dir).browserslist
        = (firstBrowsersSupplier (CONFIG_FILE_NAMES.map (fun n => (n, dir n)))).map (fun x => x.1)
      ∧ (detectProjectConfig dir).browserslistSource
        = (firstBrowsersSupplier (CONFIG_FILE_NAMES.map (fun n => (n, dir n)))).map (fun x => x.2)) := by
  have ht := detectLoop_target_char (CONFIG_FILE_NAMES.map (fun n => (n, dir n)))
    DetectionResult.empty rfl
  have ho := detectLoop_output_char (CONFIG_FILE_NAMES.map (fun n => (n, dir n)))
    DetectionResult.empty rfl
  have hb := detectLoop_browsers_char (CONFIG_FILE_NAMES.map (fun n => (n, dir n)))
    DetectionResult.empty rfl
  unfold detectProjectConfig
  refine ⟨⟨?_, ?_⟩, ⟨?_, ?_⟩, ⟨?_, ?_⟩⟩
  · rw [ht.1]; cases firstTargetSupplier (CONFIG_FILE_NAMES.map (fun n => (n, dir n))) <;> rfl
  · rw [ht.2]; cases firstTargetSupplier (CONFIG_FILE_NAMES.map (fun n => (n, dir n))) <;> rfl
  · rw [ho.1]; cases firstOutputSupplier (CONFIG_FILE_NAMES.map (fun n => (n, dir n))) <;> rfl
  · rw [ho.2]; cases firstOutputSupplier (CONFIG_FILE_NAMES.map (fun n => (n, dir n))) <;> rfl
  · rw [hb.1]; cases firstBrowsersSupplier (CONFIG_FILE_NAMES.map (fun n => (n, dir n))) <;> rfl
  · rw [hb.2]; cases firstBrowsersSupplier (CONFIG_FILE_NAMES.map (fun n => (n, dir n))) <;> rfl

/-- Claim C2: A parse failure in a candidate file is caught and contributes
nothing — the scan simply continues with the remaining candidates (first
conjunct); concretely, with a malformed package.json and a tsconfig.json
whose compiler target is "es2020", the detection result carries target
"2020" with provenance "tsconfig.json" (second conjunct). -/
theorem detectProjectConfig_parse_error_skipped :
    (∀ (res : DetectionResult) (fn : String) (rest : List (String × CandidateOutcome)),
        detectLoop res ((fn, CandidateOutcome.parseError) :: rest) = detectLoop res rest)
    ∧ detectProjectConfig (fun n =>
          if n == "package.json" then CandidateOutcome.parseError
          else if n == "tsconfig.json" then
            CandidateOutcome.parsed (parseTsConfig ⟨some ⟨some "es2020", none⟩⟩)
          else CandidateOutcome.absent)
        = { DetectionResult.empty with target := some "2020", targetSource := some "tsconfig.json" } := by
  constructor
  · intro res fn rest; rfl
  · decide

/-- Claim C3 counterexample: the claim that the edition-number spelling and the
year spelling of the same logical version normalize to the identical
canonical token is false — `parseEcmaVersion` keeps "6" and "2015" as the
distinct tokens 6 and 2015. -/
theorem parseEcmaVersion_edition_year_distinct :
    parseEcmaVersion "6" ≠ parseEcmaVersion "2015"
    ∧ parseEcmaVersion "6" = some (EcmaVersion.num 6)
    ∧ parseEcmaVersion "2015" = some (EcmaVersion.num 2015) := by
  decide

/-- Claim C3, amended: all named compiler-target spellings of the same logical
version (upper or lower case, edition or year form) map through TARGET_MAP
to the identical canonical year string, and `parseESVersion` likewise
normalizes es-prefixed spellings case-insensitively to that year string;
the bare edition-number and year spellings remain distinct tokens under
`parseEcmaVersion` (6 versus 2015), but `getBrowserTargets` treats each
edition 6..17 and its year 2009+edition identically. -/
theorem version_spellings_canonical (e : Int) (h1 : 6 ≤ e) (h2 : e ≤ 17) :
    (targetMapLookup "ES6" = some "2015" ∧ targetMapLookup "es6" = some "2015"
      ∧ targetMapLookup "ES2015" = some "2015" ∧ targetMapLookup "es2015" = some "2015"
      ∧ targetMapLookup "ES5" = some "2009" ∧ targetMapLookup "es5" = some "2009"
      ∧ targetMapLookup "ES2020" = some "2020" ∧ targetMapLookup "es2020" = some "2020")
    ∧ (parseESVersion "es6" = some "2015" ∧ parseESVersion "ES6" = some "2015"
      ∧ parseESVersion "es2015" = some "2015" ∧ parseESVersion "ES2015" = some "2015")
    ∧ getBrowserTargets (some (EcmaVersion.num e))
        = getBrowserTargets (some (EcmaVersion.num (2009 + e))) := by
  refine ⟨by decide, by decide, ?_⟩
  interval_cases e <;> decide

/-- Witness for C3 (amended) at edition 6. -/
theorem version_spellings_canonical_witness :
    getBrowserTargets (some (EcmaVersion.num 6))
      = getBrowserTargets (some (EcmaVersion.num (2009 + 6))) :=
  (version_spellings_canonical 6 (by decide) (by decide)).2.2

theorem takeWhile_all_append (p : Char → Bool) (ds suffix : List Char)
    (h2 : ∀ c ∈ ds, p c = true)
    (h3 : ∀ c, suffix.head? = some c → p c = false) :
    (ds ++ suffix).takeWhile p = ds := by
  induction ds with
  | nil =>
    cases suffix with
    | nil => rfl
    | cons c cs =>
      simp [List.takeWhile_cons, h3 c rfl]
  | cons d ds ih =>
    have hd : p d = true := h2 d (by simp)
    simp only [List.cons_append, List.takeWhile_cons, hd, if_true]
    rw [ih (fun c hc => h2 c (by simp [hc]))]

/-- Claim C4: For a version string whose es-prefix is followed by a digit run,
`parseESVersion` converts the digits d to the year `2009 + d` when
`d < 2000` and uses d itself when `d ≥ 2000`; in particular "es6" yields
"2015", "es7" yields "2016" and "es2020" yields "2020". -/
theorem parseESVersion_conversion (ds suffix : List Char)
    (h1 : ds ≠ []) (h2 : ∀ c ∈ ds, c.isDigit = true)
    (h3 : ∀ c, suffix.head? = some c → c.isDigit = false) :
    parseESVersion (String.mk ('e' :: 's' :: (ds ++ suffix)))
      = some (toString (if digitsToNat ds ≥ 2000 then digitsToNat ds else 2009 + digitsToNat ds))
    ∧ parseESVersion "es6" = some "2015"
    ∧ parseESVersion "es7" = some "2016"
    ∧ parseESVersion "es2020" = some "2020" := by
  refine ⟨?_, by decide, by decide, by decide⟩
  have htw : (ds ++ suffix).takeWhile Char.isDigit = ds :=
    takeWhile_all_append Char.isDigit ds suffix h2 h3
  have hmatch : findEsMatch ('e' :: 's' :: (ds ++ suffix)) = some ds := by
    unfold findEsMatch
    simp [htw, h1]
  unfold parseESVersion
  simp only [hmatch]
  split <;> rfl

/-- Witness for C4 at the digit run "2020" and the empty suffix. -/
theorem parseESVersion_conversion_witness :
    parseESVersion (String.mk ('e' :: 's' :: (['2', '0', '2', '0'] ++ [])))
      = some (toString (if digitsToNat ['2', '0', '2', '0'] ≥ 2000 then
          digitsToNat ['2', '0', '2', '0'] else 2009 + digitsToNat ['2', '0', '2', '0'])) :=
  (parseESVersion_conversion ['2', '0', '2', '0'] [] (by decide) (by decide)
    (fun c hc => by cases hc)).1

/-- Claim C10: The detector canonicalizes tsconfig targets ES3 and ES5 to the
legacy year strings "1999" and "2009", but `parseEcmaVersion` rejects both
(they fall below the accepted year range 2015..2026 and outside the
numeric range 3..17), so `createESLintConfig` throws an "Invalid
ECMAScript version" error for them: a detected ES3/ES5 project cannot be
checked. -/
theorem legacy_targets_rejected :
    targetMapLookup "ES3" = some "1999" ∧ targetMapLookup "ES5" = some "2009"
    ∧ (parseTsConfig ⟨some ⟨some "ES3", none⟩⟩).target = some "1999"
    ∧ (parseTsConfig ⟨some ⟨some "ES5", none⟩⟩).target = some "2009"
    ∧ parseEcmaVersion "1999" = none
    ∧ parseEcmaVersion "2009" = none
    ∧ getEcmaVersion "1999" = Except.error "Invalid ECMAScript version"
    ∧ getEcmaVersion "2009" = Except.error "Invalid ECMAScript version"
    ∧ createESLintConfig "1999" none false = Except.error "Invalid ECMAScript version"
    ∧ createESLintConfig "2009" none false = Except.error "Invalid ECMAScript version" := by
  decide

/-- A directory containing exactly one candidate file, package.json, whose
extraction yields the given result. -/
def onlyPackageJsonDir (d : ParserResult) : String → CandidateOutcome :=
  fun n => if n == "package.json" then CandidateOutcome.parsed d else CandidateOutcome.absent

theorem detectProjectConfig_only_package (d : ParserResult) :
    detectProjectConfig (onlyPackageJsonDir d)
      = applyDetection DetectionResult.empty "package.json" d := by
  have h : detectProjectConfig (onlyPackageJsonDir d)
      = (if strTruthy (applyDetection DetectionResult.empty "package.json" d).target
            && strTruthy (applyDetection DetectionResult.empty "package.json" d).outputDir
            && listTruthy (applyDetection DetectionResult.empty "package.json" d).browserslist
         then applyDetection DetectionResult.empty "package.json" d
         else detectLoop (applyDetection DetectionResult.empty "package.json" d)
            ((CONFIG_FILE_NAMES.drop 1).map (fun n => (n, CandidateOutcome.absent)))) := rfl
  have h2 : detectLoop (applyDetection DetectionResult.empty "package.json" d)
      ((CONFIG_FILE_NAMES.drop 1).map (fun n => (n, CandidateOutcome.absent)))
      = applyDetection DetectionResult.empty "package.json" d := rfl
  rw [h, h2]
  split <;> rfl

/-- A manifest naming vite in dependencies with no output-path hint. -/
def vitePkg : PackageJson :=
  ⟨none, none, none, none, [("vite", "5.0.0")], []⟩

/-- Claim C5 counterexample: for a manifest naming the known build tool vite but
containing no explicit output-path hint, the outputDir of the detection
result is not the fixed vite default "dist" — it is absent altogether: only Next.js
manifests receive a default output directory from the detector. -/
theorem vite_manifest_no_default_outputDir :
    detectProjectType vitePkg.dependencies vitePkg.devDependencies = ProjectType.vite
    ∧ DEFAULT_OUTPUT_DIRS ProjectType.vite = "dist"
    ∧ (detectProjectConfig (onlyPackageJsonDir (parsePackageJson vitePkg))).outputDir = none
    ∧ (detectProjectConfig (onlyPackageJsonDir (parsePackageJson vitePkg))).outputSource = none := by
  decide

/-- Claim C5, amended: only for a Next.js manifest does the detection result
supply the fixed default output directory of the tool — any package.json with
no truthy dist/build field and no "./dist/" main path whose dependencies
resolve to the nextjs project type yields outputDir ".next/static" (the
DEFAULT_OUTPUT_DIRS entry for nextjs) with the provenance string
"package.json (default)", which indicates the default rather than merely
the filename; other known build tools receive no outputDir from the
detector. -/
theorem nextjs_manifest_default_outputDir (pkg : PackageJson)
    (h1 : strTruthy pkg.dist = false) (h2 : strTruthy pkg.build = false)
    (h3 : mainDistHint pkg.main = false)
    (h4 : detectProjectType pkg.dependencies pkg.devDependencies = ProjectType.nextjs) :
    (parsePackageJson pkg).outputDir = some ".next/static"
    ∧ (parsePackageJson pkg).outputSource = some "package.json (default)"
    ∧ (detectProjectConfig (onlyPackageJsonDir (parsePackageJson pkg))).outputDir
        = some ".next/static"
    ∧ (detectProjectConfig (onlyPackageJsonDir (parsePackageJson pkg))).outputSource
        = some "package.json (default)"
    ∧ DEFAULT_OUTPUT_DIRS ProjectType.nextjs = ".next/static" := by
  have hout : (parsePackageJson pkg).outputDir = some ".next/static"
      ∧ (parsePackageJson pkg).outputSource = some "package.json (default)" := by
    unfold parsePackageJson
    constructor <;>
      simp [h1, h2, h3, h4, apply_ite ParserResult.outputDir, apply_ite ParserResult.outputSource]
  refine ⟨hout.1, hout.2, ?_, ?_, rfl⟩ <;>
  · rw [detectProjectConfig_only_package]
    have := applyDetection_output_eq DetectionResult.empty "package.json" (parsePackageJson pkg)
    have hcond : (strTruthy (parsePackageJson pkg).outputDir
        && !strTruthy DetectionResult.empty.outputDir) = true := by
      rw [hout.1]; rfl
    rw [hcond] at this
    simp only [if_pos rfl] at this
    first
    | (rw [this.1, hout.1]; simp)
    | (rw [this.2, hout.2]; simp [jsOrString])

/-- Witness for C5 (amended) at a concrete Next.js manifest. -/
theorem nextjs_manifest_default_outputDir_witness :
    (parsePackageJson ⟨none, none, none, none, [("next", "14.0.0")], []⟩).outputDir
      = some ".next/static"
    ∧ (parsePackageJson ⟨none, none, none, none, [("next", "14.0.0")], []⟩).outputSource
      = some "package.json (default)"
    ∧ (detectProjectConfig (onlyPackageJsonDir
        (parsePackageJson ⟨none, none, none, none, [("next", "14.0.0")], []⟩))).outputDir
      = some ".next/static"
    ∧ (detectProjectConfig (onlyPackageJsonDir
        (parsePackageJson ⟨none, none, none, none, [("next", "14.0.0")], []⟩))).outputSource
      = some "package.json (default)"
    ∧ DEFAULT_OUTPUT_DIRS ProjectType.nextjs = ".next/static" :=
  nextjs_manifest_default_outputDir ⟨none, none, none, none, [("next", "14.0.0")], []⟩
    (by decide) (by decide) (by decide) (by decide)

/-- A configuration whose target the engine-configuration builder rejects. -/
def invalidTargetCfg : Config :=
  ⟨"dist", "1999", some "chrome 100"⟩

/-- Claim C6 counterexample: an invocation of checkCompatibility can leave the
BROWSERSLIST variable changed — with a configured browsers value and the
target "1999" (exactly what detection produces for a tsconfig ES3 target),
building the engine configuration throws after the variable was assigned
and before the try/finally, so the call fails with the variable still set
to "chrome 100" instead of its prior unset state. -/
theorem browserslist_env_leak_on_invalid_target :
    (checkCompatibility invalidTargetCfg (fun _ => Except.ok ([], [])) none).2 = some "chrome 100"
    ∧ (checkCompatibility invalidTargetCfg (fun _ => Except.ok ([], [])) none).1 = Except.error ()
    ∧ targetMapLookup "ES3" = some "1999" := by
  refine ⟨rfl, rfl, by decide⟩

/-- Claim C6, amended: whenever the engine configuration builds successfully,
checkCompatibility invokes the engine with BROWSERSLIST set to the
configured browsers value (or the prior value when none is configured) and
restores the variable to its exact prior state on every path, including an
engine failure; only a configuration-construction throw (invalid target),
which happens between the assignment and the try/finally, leaves the
variable set. -/
theorem browserslist_env_restored (cfg : Config)
    (engine : Option String → Except Unit (List Violation × List Violation))
    (env0 : Option String)
    (h : (createESLintConfig cfg.target cfg.browsers false).isOk = true) :
    checkCompatibility cfg engine env0
      = (match engine (if strTruthy cfg.browsers then cfg.browsers else env0) with
         | Except.ok p => Except.ok p
         | Except.error _ => Except.ok ([], []),
         env0) := by
  unfold checkCompatibility
  cases hc : createESLintConfig cfg.target cfg.browsers false with
  | error e => rw [hc] at h; simp [Except.isOk, Except.toBool] at h
  | ok v =>
    dsimp only
    cases he : engine (if strTruthy cfg.browsers = true then cfg.browsers else env0) <;> rfl

/-- Witness for C6 (amended): a valid target, a configured browsers value,
a previously set variable and a successful engine run. -/
theorem browserslist_env_restored_witness :
    checkCompatibility ⟨"dist", "2015", some "chrome 100"⟩ (fun _ => Except.ok ([], []))
        (some "prev")
      = (match (fun (_ : Option String) =>
              (Except.ok ([], []) : Except Unit (List Violation × List Violation)))
              (if strTruthy (Config.browsers ⟨"dist", "2015", some "chrome 100"⟩) then
                Config.browsers ⟨"dist", "2015", some "chrome 100"⟩
              else some "prev") with
         | Except.ok p => Except.ok p
         | Except.error _ => Except.ok ([], []),
         some "prev") :=
  browserslist_env_restored ⟨"dist", "2015", some "chrome 100"⟩
    (fun _ => Except.ok ([], [])) (some "prev") (by decide)

/-- A blocking diagnostic and a result carrying it. -/
def blockingMsg : LintMessage :=
  ⟨some "compat/compat", 2, "Unsupported syntax", 1, 1⟩

/-- An engine result with one blocking diagnostic. -/
def blockingResult : LintResult :=
  ⟨"app.js", [blockingMsg]⟩

/-- Claim C7 counterexample: a completed run can report success although a
blocking (error-severity) diagnostic was found — when the skip option is
set, runESGuard computes success as true even though the error list is
nonempty. -/
theorem success_with_skip_despite_errors :
    runESGuardSuccess [blockingResult] true = true
    ∧ collectErrorFiles [blockingResult] = ["app.js"]
    ∧ blockingMsg.severity = 2 := by
  decide

/-- Claim C7, amended: the success field of a completed runESGuard run is true
exactly when no relevant blocking (error-severity) diagnostic was found or
the skip option was set; advisory (warning-severity) diagnostics never
affect it. -/
theorem runESGuard_success_iff (results : List LintResult) (skip : Bool) :
    runESGuardSuccess results skip = true
      ↔ ((∀ r ∈ results, ∀ m ∈ r.messages,
            ¬(m.severity = 2 ∧ isRelevantMessage m = true)) ∨ skip = true) := by
  unfold runESGuardSuccess collectErrorFiles relevantErrors
  rw [Bool.or_eq_true]
  constructor
  · rintro (hempty | hskip)
    · left
      intro r hr m hm ⟨hsev, hrel⟩
      rw [List.isEmpty_iff, List.filterMap_eq_nil_iff] at hempty
      have hthis := hempty r hr
      by_cases hc :
          (List.filter (fun m => m.severity == 2 && isRelevantMessage m) r.messages).isEmpty = true
      · rw [List.isEmpty_iff, List.filter_eq_nil_iff] at hc
        exact hc m hm (by simp [hsev, hrel])
      · rw [if_neg hc] at hthis
        exact Option.noConfusion hthis
    · right; exact hskip
  · rintro (hnone | hskip)
    · left
      rw [List.isEmpty_iff, List.filterMap_eq_nil_iff]
      intro r hr
      have : r.messages.filter (fun m => m.severity == 2 && isRelevantMessage m) = [] := by
        rw [List.filter_eq_nil_iff]
        intro m hm hcontra
        simp only [Bool.and_eq_true, beq_iff_eq] at hcontra
        exact hnone r hr m hm ⟨hcontra.1, hcontra.2⟩
      simp [this]
    · right; exact hskip

/-- Claim C8: For a compiled file that exists but has neither a sidecar .map
file next to it nor a resolvable sourceMappingURL reference in its text,
the resolver reports no map available (`.ok none`, and so does the whole
chain follower), and the violations built for that file carry no
source-mapped messages: the diagnostics keep only the compiled-file
position, no authored position is fabricated. -/
theorem no_map_reports_compiled_position (fs : FS) (f : String) (fuel : Nat)
    (hx : fs.existsSync f = true)
    (h1 : fs.existsSync (f ++ ".map") = false)
    (h2 : resolvableMapRef fs f = false) :
    getSourceMapForFile fs f = Except.ok none
    ∧ getOriginalSourceMapFuel fs (fuel + 1) f none = some (Except.ok none)
    ∧ ∀ msgs : List LintMessage,
        processResult fs (fuel + 1) ⟨f, msgs⟩
          = some (Except.ok
              ((if (relevantErrors ⟨f, msgs⟩).isEmpty then none
                else some ⟨f, relevantErrors ⟨f, msgs⟩, none⟩),
               (if (relevantWarnings ⟨f, msgs⟩).isEmpty then none
                else some ⟨f, relevantWarnings ⟨f, msgs⟩, none⟩))) := by
  have hmap : getSourceMapForFile fs f = Except.ok none := by
    unfold FS.existsSync at h1 hx
    have hm : fs.lookup (f ++ ".map") = none := by
      cases hval : fs.lookup (f ++ ".map")
      · rfl
      · rw [hval] at h1; simp at h1
    obtain ⟨jsEntry, hj⟩ : ∃ jsEntry, fs.lookup f = some jsEntry := by
      cases hval : fs.lookup f
      · rw [hval] at hx; simp at hx
      · exact ⟨_, rfl⟩
    unfold resolvableMapRef at h2
    rw [hj] at h2
    dsimp only at h2
    unfold getSourceMapForFile
    rw [hm, hj]
    dsimp only
    cases hscan : scanForMapUrl jsEntry.content.data with
    | none => rfl
    | some urlChars =>
      rw [hscan] at h2
      dsimp only at h2
      by_cases hend : strEndsWith (String.mk urlChars) ".map" = true
      · rw [hend] at h2
        simp only [Bool.true_and] at h2
        unfold FS.existsSync at h2
        have hres : fs.lookup (resolveMapPath f (String.mk urlChars)) = none := by
          cases hval : fs.lookup (resolveMapPath f (String.mk urlChars))
          · rfl
          · rw [hval] at h2; simp at h2
        simp [hend, hres]
      · have hend2 : strEndsWith (String.mk urlChars) ".map" = false := by
          cases hv : strEndsWith (String.mk urlChars) ".map"
          · rfl
          · exact absurd hv hend
        simp [hend2]
  have hchain : getOriginalSourceMapFuel fs (fuel + 1) f none = some (Except.ok none) := by
    unfold getOriginalSourceMapFuel
    rw [hmap]
  refine ⟨hmap, hchain, ?_⟩
  intro msgs
  unfold processResult
  dsimp only
  by_cases hb : ((relevantErrors ⟨f, msgs⟩).isEmpty && (relevantWarnings ⟨f, msgs⟩).isEmpty) = true
  · rw [if_pos hb]
  · rw [if_neg hb, hchain]

/-- Witness for C8: a directory holding a lone compiled file with no map
artifacts at all. -/
theorem no_map_reports_compiled_position_witness :
    getSourceMapForFile ⟨[("/d/x.js", ⟨"var a = 1;", none⟩)]⟩ "/d/x.js" = Except.ok none
    ∧ getOriginalSourceMapFuel ⟨[("/d/x.js", ⟨"var a = 1;", none⟩)]⟩ (0 + 1) "/d/x.js" none
        = some (Except.ok none)
    ∧ ∀ msgs : List LintMessage,
        processResult ⟨[("/d/x.js", ⟨"var a = 1;", none⟩)]⟩ (0 + 1) ⟨"/d/x.js", msgs⟩
          = some (Except.ok
              ((if (relevantErrors ⟨"/d/x.js", msgs⟩).isEmpty then none
                else some ⟨"/d/x.js", relevantErrors ⟨"/d/x.js", msgs⟩, none⟩),
               (if (relevantWarnings ⟨"/d/x.js", msgs⟩).isEmpty then none
                else some ⟨"/d/x.js", relevantWarnings ⟨"/d/x.js", msgs⟩, none⟩))) :=
  no_map_reports_compiled_position ⟨[("/d/x.js", ⟨"var a = 1;", none⟩)]⟩ "/d/x.js" 0
    (by decide) (by decide) (by decide)

/-- A map artifact whose every queried position points back at the
compiled file itself. -/
def loopMap : SourceMap :=
  ⟨fun _ _ => ⟨some "/p/a.js", some 1, some 0⟩⟩

/-- A file system with a compiled file whose sidecar map names the
compiled file itself as its authored source: a cyclic map chain. -/
def cycleFS : FS :=
  ⟨[("/p/a.js", ⟨"", none⟩), ("/p/a.js.map", ⟨"", some loopMap⟩)]⟩

theorem cycle_step (fuel : Nat) (o : Option String) :
    getOriginalSourceMapFuel cycleFS (fuel + 1) "/p/a.js" o
      = getOriginalSourceMapFuel cycleFS fuel "/p/a.js" (some "/p/a.js") := rfl

theorem cycle_none (fuel : Nat) :
    ∀ o, getOriginalSourceMapFuel cycleFS fuel "/p/a.js" o = none := by
  induction fuel with
  | zero => intro o; rfl
  | succ n ih =>
    intro o
    rw [cycle_step]
    exact ih _

/-- Claim C9 counterexample: the chain-following loop of getOriginalSourceMap
does not terminate on every input — on a file system whose sidecar map
resolves its authored source back to the same existing compiled .js file,
no amount of fuel makes the loop finish. -/
theorem source_map_chain_cycle_diverges :
    ¬ chainTerminates cycleFS "/p/a.js" := by
  rintro ⟨fuel, hf⟩
  rw [cycle_none fuel none] at hf
  exact Bool.false_ne_true hf

/-- Claim C9, amended: the chain loop does stop at any hop whose authored path
is a webpack:// pseudo-URL, does not exist on disk, or is not a compiled
.js file — it returns the consumer of that hop immediately; however, a cyclic
chain of existing .js files makes it run forever, so termination holds
only for acyclic chains, not on every input. -/
theorem source_map_chain_break_conditions (fs : FS) (fuel : Nat) (currentFile : String)
    (origFile : Option String) (consumer : SourceMap) (src : String)
    (hc : getSourceMapForFile fs currentFile = Except.ok (some consumer))
    (hs : consumer.firstSource = some src)
    (hne : (src == "") = false)
    (hbreak : strStartsWith src "webpack://" = true
      ∨ fs.existsSync (if isAbsolutePath src then src else resolveMapPath currentFile src) = false
      ∨ strEndsWith (if isAbsolutePath src then src else resolveMapPath currentFile src) ".js"
          = false) :
    getOriginalSourceMapFuel fs (fuel + 1) currentFile origFile
      = some (Except.ok (some ⟨consumer, some src⟩)) := by
  unfold getOriginalSourceMapFuel
  rw [hc]
  dsimp only
  rw [hs]
  dsimp only
  rw [hne]
  by_cases hw : strStartsWith src "webpack://" = true
  · simp [hw]
  · have hw2 : strStartsWith src "webpack://" = false := by
      cases hv : strStartsWith src "webpack://"
      · rfl
      · exact absurd hv hw
    have hcond : (fs.existsSync (if isAbsolutePath src then src else resolveMapPath currentFile src)
        && strEndsWith (if isAbsolutePath src then src else resolveMapPath currentFile src) ".js")
        = false := by
      rcases hbreak with hb | hb | hb
      · exact absurd hb hw
      · simp [hb]
      · simp [hb]
    simp [hw2, hcond]

/-- A map whose authored source is a webpack:// pseudo-URL. -/
def webpackMap : SourceMap :=
  ⟨fun _ _ => ⟨some "webpack://app/src/m.ts", some 1, some 0⟩⟩

/-- A file system whose compiled file has a sidecar map pointing at a
webpack:// pseudo-URL. -/
def webpackFS : FS :=
  ⟨[("/q/b.js", ⟨"", none⟩), ("/q/b.js.map", ⟨"", some webpackMap⟩)]⟩

/-- Witness for C9 (amended): the loop stops at a webpack:// authored path
after one hop. -/
theorem source_map_chain_break_conditions_witness :
    getOriginalSourceMapFuel webpackFS (0 + 1) "/q/b.js" none
      = some (Except.ok (some ⟨webpackMap, some "webpack://app/src/m.ts"⟩)) :=
  source_map_chain_break_conditions webpackFS 0 "/q/b.js" none webpackMap
    "webpack://app/src/m.ts" rfl rfl (by decide) (Or.inl (by decide))

end EsGuard
